import Mathlib

/-
Verification development for the matscan ingestion core
(src/processing/minecraft.rs, src/modes/rescan.rs, src/modes/fingerprint.rs).

The Rust code is shallowly embedded as executable Lean definitions:
JSON/BSON documents become an inductive tree, the mongo Document values
produced by clean_response_data become a record of the exact fields the
function emits, the shared mutex state (bad_ips + ips_with_same_hash)
becomes an explicit state record threaded through create_bulk_update, and
the cursor loops of the two selectors become structural recursion over the
list of fetched documents.  SystemTime::now() is modelled as an explicit
Nat parameter.  External collaborators (the azalea_chat rich-text
deserializer, std DefaultHasher) are parameters of the embedding.
-/

namespace Matscan

/-- Untyped JSON / BSON tree, as far as the embedded functions inspect it.
Numbers are modelled as integers (the code only ever reads i32 fields). -/
inductive Json where
  | null
  | jbool (b : Bool)
  | num (n : Int)
  | str (s : String)
  | arr (elems : List Json)
  | obj (fields : List (String × Json))

/-- First-match association-list lookup, the access pattern of both
serde_json maps and bson Documents. -/
def jLookup (k : String) : List (String × Json) → Option Json
  | [] => none
  | (k0, v) :: rest => if k0 = k then some v else jLookup k rest

/-- data.as_object() -/
def Json.asObj : Json → Option (List (String × Json))
  | .obj o => some o
  | _ => none

/-- value.as_str() -/
def Json.asStr : Json → Option String
  | .str s => some s
  | _ => none

/-- value.as_array() -/
def Json.asArr : Json → Option (List Json)
  | .arr l => some l
  | _ => none

/-- value.as_i32(); integer width is not modelled. -/
def Json.asI32 : Json → Option Int
  | .num n => some n
  | _ => none

/-- An IPv4 address as its four octets. -/
abbrev Ipv4 := Nat × Nat × Nat × Nat

/-- One dotted component of an address string, per Rust std's Ipv4Addr
parser: nonempty, decimal digits only, no leading zero, value at most 255. -/
def parseOctet (l : List Char) : Option Nat :=
  if l = [] then none
  else if !(l.all Char.isDigit) then none
  else if l.length > 1 && l.head? == some '0' then none
  else
    let v := l.foldl (fun acc c => acc * 10 + (c.toNat - 48)) 0
    if v ≤ 255 then some v else none

/-- Split a character list on dots, keeping empty components. -/
def splitDots : List Char → List (List Char)
  | [] => [[]]
  | c :: rest =>
    if c = '.' then [] :: splitDots rest
    else
      match splitDots rest with
      | [] => [[c]]
      | g :: gs => (c :: g) :: gs

/-- "1.2.3.4".parse::<Ipv4Addr>() - exactly four valid octets. -/
def parseIpv4 (s : String) : Option Ipv4 :=
  match splitDots s.toList with
  | [a, b, c, d] =>
    (parseOctet a).bind fun oa =>
      (parseOctet b).bind fun ob =>
        (parseOctet c).bind fun oc =>
          (parseOctet d).map fun od => (oa, ob, oc, od)
  | _ => none

/-- A document fetched from the servers collection. -/
abbrev Doc := List (String × Json)

/-- doc.get_str(key).ok() -/
def docGetStr (d : Doc) (k : String) : Option String :=
  (jLookup k d).bind Json.asStr

/-- Modelled from the spec: database::get_u32 (helper of the repo's database
module, not in src/) reads a stored port/number field as an unsigned 32-bit
integer, returning nothing when absent or out of range. -/
def docGetU32 (d : Doc) (k : String) : Option Nat :=
  match jLookup k d with
  | some (Json.num n) => if 0 ≤ n ∧ n < 4294967296 then some n.toNat else none
  | _ => none

/-- doc.get_i32(key).unwrap_or(default) -/
def docGetI32D (d : Doc) (k : String) (dflt : Int) : Int :=
  match (jLookup k d).bind Json.asI32 with
  | some n => n
  | none => dflt

/-- Outcome of the fingerprint candidate pass over the fetched documents:
either the loop panicked (the unwrap on Ipv4 parsing in
get_addrs_and_protocol_versions), or it finished with the collected
(address, protocol-version) pairs and the two missing-field counters. -/
inductive FpResult where
  | panicked
  | finished (results : List ((Ipv4 × Nat) × Int)) (ipMissing portMissing : Nat)
deriving DecidableEq

/-- The per-document loop of get_addrs_and_protocol_versions
(src/modes/fingerprint.rs).  For each fetched document: ip is read with
get_str, port with get_u32; a missing ip or port increments its counter and
the document contributes nothing; when both are present the ip string is
parsed with .unwrap(), so an unparseable address string aborts the whole
pass (modelled as panicked); otherwise (addr, port as u16, protocol
defaulting to 47) is collected. -/
def fingerprintLoop : List Doc → FpResult
  | [] => .finished [] 0 0
  | d :: rest =>
    let ipStr := docGetStr d "ip"
    let port := docGetU32 d "port"
    let imInc := if ipStr = none then 1 else 0
    let pmInc := if port = none then 1 else 0
    match ipStr, port with
    | some s, some p =>
      match parseIpv4 s with
      | none => .panicked
      | some a =>
        match fingerprintLoop rest with
        | .panicked => .panicked
        | .finished rs im pm =>
          .finished (((a, p % 65536), docGetI32D d "protocol" 47) :: rs) (im + imInc) (pm + pmInc)
    | _, _ =>
      match fingerprintLoop rest with
      | .panicked => .panicked
      | .finished rs im pm => .finished rs (im + imInc) (pm + pmInc)

/-- Result of the rescan candidate loop of get_ranges (src/modes/rescan.rs):
the collected scan targets, plus the addresses for which a
delete-many-of-non-canonical-records side effect was issued. -/
structure RescanOut where
  ranges : List (Ipv4 × Nat)
  deletes : List Ipv4
deriving DecidableEq

/-- The per-document loop of get_ranges (src/modes/rescan.rs, lines 83-126),
threading the function-local copy of bad_ips.  A document with a missing or
unparseable ip or a missing port is skipped.  A parsed candidate whose
address is in the local bad-ip copy and whose port differs from 25565 is
dropped, its address's non-canonical records are deleted, and the address is
removed from the local copy (the code's comment: so we do not delete twice).
Every other candidate is pushed as a single scan range with the port
truncated to u16. -/
def getRangesLoop : List Ipv4 → List Doc → RescanOut
  | _, [] => ⟨[], []⟩
  | bad, d :: rest =>
    match docGetStr d "ip" with
    | none => getRangesLoop bad rest
    | some ipStr =>
      match parseIpv4 ipStr with
      | none => getRangesLoop bad rest
      | some ip =>
        match docGetU32 d "port" with
        | none => getRangesLoop bad rest
        | some port =>
          if ip ∈ bad ∧ port ≠ 25565 then
            let out := getRangesLoop (bad.erase ip) rest
            ⟨out.ranges, ip :: out.deletes⟩
          else
            let out := getRangesLoop bad rest
            ⟨(ip, port % 65536) :: out.ranges, out.deletes⟩

/-! ## The Response Normalizer: clean_response_data -/

/-- "Anonymous Player" -/
def anonymousPlayerName : String := "Anonymous Player"

/-- The motd whose servers randomize the reported player sample; when the
flattened description equals it the whole sample is ignored. -/
def ignoreMotd : String :=
  "To protect the privacy of this server and its\nusers, you must log in once to see ping data."

/-- The literal substrings matched against the flattened description
(hosting-provider offline banners and shield banners). -/
def honeypotBanners : List String :=
  [ "Craftserve.pl - wydajny hosting Minecraft!"
  , "Ochrona DDoS: Przekroczono limit polaczen."
  , "¨ |  "
  , "Start the server at FalixNodes.net/start"
  , "This server is offline Powcered by FalixNodes.net"
  , "Serwer jest aktualnie wy"
  , "Blad pobierania statusu. Polacz sie bezposrednio!" ]

/-- The exact version-name strings matched by the honeypot check.  The
third entry is the source's mojibake literal U+00E2 U+009A U+00A0 (a
misdecoded warning sign followed by a no-break space) before " Error". -/
def badVersionNames : List String :=
  ["COSMIC GUARD", "TCPShield.com", "\u00E2\u009A\u00A0 Error", "⚠ Error"]

/-- needle is a contiguous run at the head of hay. -/
def listStartsWith : List Char → List Char → Bool
  | [], _ => true
  | _ :: _, [] => false
  | a :: xs, b :: ys => a == b && listStartsWith xs ys

/-- needle occurs contiguously somewhere in hay. -/
def listIsSub (needle : List Char) : List Char → Bool
  | [] => needle.isEmpty
  | c :: rest => listStartsWith needle (c :: rest) || listIsSub needle rest

/-- hay.contains(needle) on Rust strings. -/
def strContains (hay needle : String) : Bool :=
  listIsSub needle.toList hay.toList

/-- The honeypot/catch-all rejection of clean_response_data: any banner
substring in the description, or an exact bad version name. -/
def isHoneypot (description versionName : String) : Bool :=
  honeypotBanners.any (fun b => strContains description b) || badVersionNames.contains versionName

/-- A character of the regex class 0-9a-f. -/
def isHexLower (c : Char) : Bool :=
  ('0' ≤ c && c ≤ '9') || ('a' ≤ c && c ≤ 'f')

/-- The UUID pattern matched at the head of the character list: twelve hex
characters, then 3 or 4, then nineteen hex characters. -/
def uuidMatchAt (l : List Char) : Bool :=
  (l.take 12).length == 12 && (l.take 12).all isHexLower &&
    match l.drop 12 with
    | c :: rest =>
      (c == '3' || c == '4') && ((rest.take 19).length == 19 && (rest.take 19).all isHexLower)
    | [] => false

/-- UUID_REGEX.is_match: unanchored search for the pattern. -/
def uuidRegexMatch : List Char → Bool
  | [] => false
  | c :: rest => uuidMatchAt (c :: rest) || uuidRegexMatch rest

/-- uuid.len() >= 12 && uuid with byte 12 equal to the character 4, the
online-mode test of the players loop. -/
def uuidIsV4 (u : List Char) : Bool :=
  decide (u.length ≥ 12) && ((u.drop 12).head? == some '4')

/-- The player id string of one sample entry, dashes removed
(player.get("id") as str, unwrap_or_default, replace of the dash). -/
def entryUuidOf (p : List (String × Json)) : List Char :=
  (((jLookup "id" p).bind Json.asStr).getD "").toList.filter (fun c => c != '-')

/-- The player id of a raw sample entry: empty when the entry is not an
object (that case aborts the whole record anyway). -/
def entryUuid (e : Json) : List Char :=
  match e.asObj with
  | some p => entryUuidOf p
  | none => []

/-- player.get("name") as str, unwrap_or_default. -/
def entryNameOf (p : List (String × Json)) : String :=
  ((jLookup "name" p).bind Json.asStr).getD ""

/-- The local state of the players loop in clean_response_data:
is_online_mode, mixed_online_mode, fake_sample, has_players, and the
players.(uuid) subdocuments (uuid key, last_seen stamp, display name). -/
structure PState where
  isOnlineMode : Option Bool
  mixed : Bool
  fake : Bool
  hasPlayers : Bool
  playersData : List (String × Nat × String)
deriving DecidableEq

/-- The loop state before the first sample entry. -/
def initPState : PState :=
  { isOnlineMode := none, mixed := false, fake := false, hasPlayers := false, playersData := [] }

/-- Document.insert: replace the value at an existing key, else append. -/
def assocSet (l : List (String × Nat × String)) (k : String) (v : Nat × String) :
    List (String × Nat × String) :=
  match l with
  | [] => [(k, v)]
  | (k0, v0) :: rest => if k0 = k then (k, v) :: rest else (k0, v0) :: assocSet rest k v

/-- The online-mode inference of one players-loop iteration: skipped once
mixed mode was detected and for nil (all-zero) ids; a v4-pattern id meeting
an offline verdict (or a non-v4 id meeting an online verdict) flags mixed
mode; otherwise a still-unset verdict is set from this id. -/
def updateMode (uuid : List Char) (st : PState) : PState :=
  if st.mixed then st
  else if uuid.all (fun c => c == '0') then st
  else if (uuidIsV4 uuid = true ∧ st.isOnlineMode = some false) ∨
      (uuidIsV4 uuid = false ∧ st.isOnlineMode = some true) then
    { st with mixed := true }
  else if st.isOnlineMode = none then
    { st with isOnlineMode := some (uuidIsV4 uuid) }
  else st

/-- One iteration of the players loop.  A non-object entry makes the whole
clean_response_data return none (the try operator on as_document).  The
fake-sample flag is raised when the id matches neither the UUID regex nor
the anonymous player name; then the online-mode inference runs and the
players.(uuid) subdocument is recorded. -/
def stepPlayer (now : Nat) (e : Json) (st : PState) : Option PState :=
  match e.asObj with
  | none => none
  | some p =>
    let uuid := entryUuidOf p
    let st2 := updateMode uuid st
    some { st2 with
            fake := st.fake || (!(uuidRegexMatch uuid) && !(entryNameOf p == anonymousPlayerName))
            hasPlayers := true
            playersData :=
              assocSet st.playersData ("players." ++ String.mk uuid) (now, entryNameOf p) }

/-- The players loop over the (at most 100) sample entries. -/
def processPlayers (now : Nat) : List Json → PState → Option PState
  | [], st => some st
  | e :: rest, st =>
    match stepPlayer now e st with
    | none => none
    | some st2 => processPlayers now rest st2

/-- players.sample as an array, first 100 entries, defaulting to empty. -/
def sampleEntriesOf (o : List (String × Json)) : List Json :=
  (((((jLookup "players" o).bind Json.asObj).bind (jLookup "sample")).bind Json.asArr).map
    (fun l => l.take 100)).getD []

/-- The sample entries of a raw response (empty when the payload is not an
object). -/
def sampleEntries (data : Json) : List Json :=
  (data.asObj.map sampleEntriesOf).getD []

/-- version.name as str, unwrap_or_default. -/
def versionNameOf (o : List (String × Json)) : String :=
  ((((jLookup "version" o).bind Json.asObj).bind (jLookup "name")).bind Json.asStr).getD ""

/-- version.protocol as i32, unwrap_or_default. -/
def versionProtocolOf (o : List (String × Json)) : Int :=
  ((((jLookup "version" o).bind Json.asObj).bind (jLookup "protocol")).bind Json.asI32).getD 0

/-- players.max as i32, unwrap_or_default. -/
def maxPlayersOf (o : List (String × Json)) : Int :=
  ((((jLookup "players" o).bind Json.asObj).bind (jLookup "max")).bind Json.asI32).getD 0

/-- players.online as i32, unwrap_or_default. -/
def onlinePlayersOf (o : List (String × Json)) : Int :=
  ((((jLookup "players" o).bind Json.asObj).bind (jLookup "online")).bind Json.asI32).getD 0

/-- The field set emitted by clean_response_data for one accepted response
(the final_cleaned document extended with players_data and extra_data).
Timestamps are the now parameter; an isCracked value of some none is
Bson::Null (the mixed/indeterminate marker), some (some b) a stored
boolean, none an absent field. -/
structure CleanedData where
  updatedAt : Nat
  onlinePlayers : Int
  maxPlayers : Int
  version : String
  protocol : Int
  description : String
  playersData : List (String × Nat × String)
  isCracked : Option (Option Bool)
  lastSeen : Option Nat
  lastActive : Option Nat
  lastEmpty : Option Nat
deriving DecidableEq

/-- Assemble the emitted document from the parsed fields and the final
players-loop state, mirroring the tail of clean_response_data: the
players.(uuid) entries and the whole extra_data block (isCracked,
last_seen, lastActive / lastEmpty) are only added when the sample was not
flagged fake. -/
def mkCleaned (now : Nat) (o : List (String × Json)) (description : String) (st : PState) :
    CleanedData :=
  { updatedAt := now
    onlinePlayers := onlinePlayersOf o
    maxPlayers := maxPlayersOf o
    version := versionNameOf o
    protocol := versionProtocolOf o
    description := description
    playersData := if st.fake then [] else st.playersData
    isCracked :=
      if st.fake then none
      else if st.mixed then some none
      else st.isOnlineMode.map some
    lastSeen := if st.fake then none else some now
    lastActive := if st.fake then none else if st.hasPlayers then some now else none
    lastEmpty := if st.fake then none else if st.hasPlayers then none else some now }

/-- clean_response_data (src/processing/minecraft.rs, lines 67-280).
fmtDeser is the external azalea_chat rich-text deserializer composed with
to_string (flattening); in the code a failed deserialization is
unwrap_or_default-ed, which flattens to the empty string - only an absent
description key returns none.  A top-level non-object payload returns none
(as_object with the try operator).  The honeypot banner and version-name
check, the privacy-motd sample suppression, the players loop, and the
final document assembly follow the source line by line. -/
def cleanResponseData (fmtDeser : Json → Option String) (now : Nat) (data : Json) :
    Option CleanedData :=
  match data.asObj with
  | none => none
  | some o =>
    match jLookup "description" o with
    | none => none
    | some dRaw =>
      let description := (fmtDeser dRaw).getD ""
      if isHoneypot description (versionNameOf o) then none
      else
        let sample := if description = ignoreMotd then [] else sampleEntriesOf o
        match processPlayers now sample initPState with
        | none => none
        | some st => some (mkCleaned now o description st)

/-- The computed (flattened) description of a payload, when present. -/
def descrOf (fmtDeser : Json → Option String) (data : Json) : Option String :=
  (data.asObj.bind (jLookup "description")).map (fun d => (fmtDeser d).getD "")

/-- The sample list the players loop actually runs on: empty when the
description is absent or equals the privacy motd. -/
def processedSample (fmtDeser : Json → Option String) (o : List (String × Json)) : List Json :=
  match jLookup "description" o with
  | none => []
  | some d => if (fmtDeser d).getD "" = ignoreMotd then [] else sampleEntriesOf o

/-- The fake-sample verdict the Normalizer reaches on a payload. -/
def fakeFlagOf (fmtDeser : Json → Option String) (now : Nat) (data : Json) : Option Bool :=
  (data.asObj.bind (fun o => processPlayers now (processedSample fmtDeser o) initPState)).map
    PState.fake

/-! ## The Anomaly Detector and Update Builder: create_bulk_update -/

/-- One Repeat Cache value: the match count (none once invalidated by a
fingerprint mismatch) and the cached content hash. -/
structure CachedIpHash where
  count : Option Nat
  hash : Nat
deriving DecidableEq

/-- The shared state behind the mutex: the blocklist and the per-address
repeat cache (ips_with_same_hash), each cache entry paired with the set of
ports already counted, kept as a duplicate-free list. -/
structure SharedState where
  badIps : List Ipv4
  ipsWithSameHash : List (Ipv4 × CachedIpHash × List Nat)
deriving DecidableEq

/-- HashMap::get on the repeat cache. -/
def cacheLookup : List (Ipv4 × CachedIpHash × List Nat) → Ipv4 → Option (CachedIpHash × List Nat)
  | [], _ => none
  | (k, v) :: rest, a => if k = a then some v else cacheLookup rest a

/-- Write-through of the entry at a key (covers both the get_mut in-place
mutation and HashMap::insert of a fresh entry). -/
def cacheSet : List (Ipv4 × CachedIpHash × List Nat) → Ipv4 → CachedIpHash × List Nat →
    List (Ipv4 × CachedIpHash × List Nat)
  | [], k, v => [(k, v)]
  | (k0, v0) :: rest, k, v => if k0 = k then (k, v) :: rest else (k0, v0) :: cacheSet rest k v

/-- HashSet::insert on the counted-port set. -/
def insertPort (p : Nat) (P : List Nat) : List Nat :=
  if p ∈ P then P else P ++ [p]

/-- determine_hash: the content fingerprint over (description, version
name, protocol, max players).  The std DefaultHasher is external, so the
embedding is parameterized by the hash function over exactly that tuple;
in this flow the mongo update always carries a set-document, so the
get_document error path cannot fire. -/
def determineHash (hashFn : String × String × Int × Int → Nat) (u : CleanedData) : Nat :=
  hashFn (u.description, u.version, u.protocol, u.maxPlayers)

/-- Outcome of create_bulk_update: the early bail on a blocklisted address
with a non-canonical port, the bail after deciding promotion to the
blocklist (the caller then spawns add_to_bad_ips), or the built bulk
update request. -/
inductive CBUResult where
  | earlyBad
  | promotedBad
  | ok (queryIp : Ipv4) (queryPort : Nat) (update : CleanedData) (upsert : Bool)
deriving DecidableEq

/-- Whether an outcome is the promote-to-blocklist signal. -/
def isPromoted : CBUResult → Bool
  | .promotedBad => true
  | _ => false

/-- create_bulk_update (src/processing/minecraft.rs, lines 282-365).
Fail fast when the address is blocklisted and the port is not 25565.
Otherwise, under the lock: a fresh address inserts count 1, this hash and
this port; a port already counted is a no-op; with an active count, a
matching hash increments the count and records the port, signalling
promotion when the count reaches 100, while a differing hash invalidates
the count (sets it to none) but keeps the entry.  The add_to_bad_ips side
effect is deferred to after the lock (the promotedBad outcome); otherwise
the upsert-enabled bulk update with the exact ip/port filter is built. -/
def createBulkUpdate (hashFn : String × String × Int × Int → Nat) (st : SharedState)
    (target : Ipv4 × Nat) (u : CleanedData) : SharedState × CBUResult :=
  if target.1 ∈ st.badIps ∧ target.2 ≠ 25565 then (st, .earlyBad)
  else
    match cacheLookup st.ipsWithSameHash target.1 with
    | some (data, ports) =>
      if target.2 ∈ ports then (st, .ok target.1 target.2 u true)
      else
        match data.count with
        | some c =>
          if determineHash hashFn u = data.hash then
            let st2 := { st with
              ipsWithSameHash :=
                cacheSet st.ipsWithSameHash target.1
                  (⟨some (c + 1), data.hash⟩, insertPort target.2 ports) }
            if c + 1 ≥ 100 then (st2, .promotedBad) else (st2, .ok target.1 target.2 u true)
          else
            let st2 := { st with
              ipsWithSameHash :=
                cacheSet st.ipsWithSameHash target.1 (⟨none, data.hash⟩, ports) }
            (st2, .ok target.1 target.2 u true)
        | none => (st, .ok target.1 target.2 u true)
    | none =>
      let st2 := { st with
        ipsWithSameHash :=
          cacheSet st.ipsWithSameHash target.1
            (⟨some 1, determineHash hashFn u⟩, [target.2]) }
      (st2, .ok target.1 target.2 u true)

/-- Sequential processing of a batch of probes through create_bulk_update,
threading the shared state and collecting each probe's outcome. -/
def runUpdates (hashFn : String × String × Int × Int → Nat) :
    SharedState → List ((Ipv4 × Nat) × CleanedData) → SharedState × List CBUResult
  | st, [] => (st, [])
  | st, (tgt, u) :: rest =>
    let sr := createBulkUpdate hashFn st tgt u
    let rest2 := runUpdates hashFn sr.1 rest
    (rest2.1, sr.2 :: rest2.2)

/-! ## Notions used by the claim statements, and concrete test inputs -/

/-- A possible rich-text deserializer for concrete counterexamples: plain
strings flatten to themselves, anything else fails to deserialize (the
azalea_chat deserializer accepts strings and rejects plain numbers). -/
def sampleFmtDeser : Json → Option String := fun j =>
  match j with
  | .str s => some s
  | _ => none

/-- A well-formed id of the given version character: twelve lowercase-hex
characters, the version character, then nineteen lowercase-hex characters
(the shape the UUID regex recognises, anchored at the start). -/
def validUuid (v : Char) (u : List Char) : Prop :=
  ∃ a b, u = a ++ v :: b ∧ a.length = 12 ∧ a.all isHexLower = true ∧
    b.length = 19 ∧ b.all isHexLower = true

/-- Whether a record stores a boolean online-mode verdict (an isCracked
field holding an actual boolean, rather than Null or nothing). -/
def boolCrackedStored (r : CleanedData) : Bool :=
  match r.isCracked with
  | some (some _) => true
  | _ => false

/-- An active count is consistent with the recorded port-set size. -/
def countOk : Option Nat → Nat → Prop
  | some n, len => n = len
  | none, _ => True

instance (c : Option Nat) (len : Nat) : Decidable (countOk c len) :=
  match c with
  | some n => decidable_of_iff (n = len) Iff.rfl
  | none => isTrue trivial

/-- One repeat-cache entry is consistent: an active count equals the size
of the recorded port set, and the port list is duplicate-free. -/
def entryOk (e : CachedIpHash × List Nat) : Prop :=
  countOk e.1.count e.2.length ∧ e.2.Nodup

instance : DecidablePred entryOk := fun _ => instDecidableAnd

/-- Every entry of the repeat cache is consistent. -/
def CacheInv (l : List (Ipv4 × CachedIpHash × List Nat)) : Prop :=
  ∀ kv ∈ l, entryOk kv.2

instance (l : List (Ipv4 × CachedIpHash × List Nat)) : Decidable (CacheInv l) :=
  List.decidableBAll _ l

/-- A record as emitted for an empty response with empty description. -/
def demoRecord : CleanedData :=
  { updatedAt := 0, onlinePlayers := 0, maxPlayers := 0, version := "", protocol := 0
    description := "", playersData := [], isCracked := none, lastSeen := some 0
    lastActive := none, lastEmpty := some 0 }

/-- A stored document for a blocklisted address on a non-canonical port. -/
def blockedDoc : Doc := [("ip", Json.str "1.2.3.4"), ("port", Json.num 25566)]

/-- A stored document for an address on the canonical port 25565. -/
def canonDoc : Doc := [("ip", Json.str "1.2.3.4"), ("port", Json.num 25565)]

/-- A payload whose description is present but not deserializable as rich
text (a bare number). -/
def dataC3 : Json := Json.obj [("description", Json.num 5)]

/-- A payload with a valid description and one sample entry whose id
matches neither UUID scheme and is not the anonymous player. -/
def dataC4 : Json :=
  Json.obj [("description", Json.str "hi"),
            ("players", Json.obj [("sample",
              Json.arr [Json.obj [("id", Json.str "xyz"), ("name", Json.str "Bob")]])])]

/-- A sample entry with a v4-pattern id. -/
def c8e1 : Json :=
  Json.obj [("id", Json.str "00000000000040000000000000000000"), ("name", Json.str "A")]

/-- A sample entry with a v3-pattern id. -/
def c8e2 : Json :=
  Json.obj [("id", Json.str "00000000000030000000000000000000"), ("name", Json.str "B")]

/-- A payload whose sample holds one v4-pattern and one v3-pattern id. -/
def dataC8 : Json :=
  Json.obj [("description", Json.str "hello"),
            ("players", Json.obj [("sample", Json.arr [c8e1, c8e2])])]

/-- A payload whose description is the privacy motd and whose sample holds
a non-object entry. -/
def dataC9 : Json :=
  Json.obj [("description", Json.str ignoreMotd),
            ("players", Json.obj [("sample", Json.arr [Json.num 1])])]

/-! ## Helper lemmas -/

theorem cacheLookup_set_self (l : List (Ipv4 × CachedIpHash × List Nat)) (k : Ipv4)
    (v : CachedIpHash × List Nat) : cacheLookup (cacheSet l k v) k = some v := by
  induction l with
  | nil => simp [cacheSet, cacheLookup]
  | cons kv rest ih =>
    obtain ⟨k0, v0⟩ := kv
    by_cases h : k0 = k
    · simp [cacheSet, h, cacheLookup]
    · simp [cacheSet, h, cacheLookup, ih]

theorem cacheLookup_set_ne (l : List (Ipv4 × CachedIpHash × List Nat)) (k : Ipv4)
    (v : CachedIpHash × List Nat) (a : Ipv4) (h : k ≠ a) :
    cacheLookup (cacheSet l k v) a = cacheLookup l a := by
  induction l with
  | nil => simp [cacheSet, cacheLookup, h]
  | cons kv rest ih =>
    obtain ⟨k0, v0⟩ := kv
    by_cases h0 : k0 = k
    · subst h0
      simp [cacheSet, cacheLookup, h]
    · simp [cacheSet, h0, cacheLookup, ih]

theorem cacheLookup_mem (l : List (Ipv4 × CachedIpHash × List Nat)) (a : Ipv4)
    (v : CachedIpHash × List Nat) (h : cacheLookup l a = some v) : (a, v) ∈ l := by
  induction l with
  | nil => simp [cacheLookup] at h
  | cons kv rest ih =>
    obtain ⟨k0, v0⟩ := kv
    by_cases h0 : k0 = a
    · subst h0
      simp [cacheLookup] at h
      simp [h]
    · simp [cacheLookup, h0] at h
      exact List.mem_cons_of_mem _ (ih h)

theorem mem_cacheSet (l : List (Ipv4 × CachedIpHash × List Nat)) (k : Ipv4)
    (v : CachedIpHash × List Nat) (kv : Ipv4 × CachedIpHash × List Nat)
    (h : kv ∈ cacheSet l k v) : kv = (k, v) ∨ kv ∈ l := by
  induction l with
  | nil =>
    simp only [cacheSet, List.mem_singleton] at h
    exact Or.inl h
  | cons kv0 rest ih =>
    obtain ⟨k0, v0⟩ := kv0
    by_cases h0 : k0 = k
    · subst h0
      simp only [cacheSet, if_pos rfl] at h
      rcases List.mem_cons.mp h with h1 | h1
      · exact Or.inl h1
      · exact Or.inr (List.mem_cons_of_mem _ h1)
    · simp only [cacheSet, if_neg h0] at h
      rcases List.mem_cons.mp h with h1 | h1
      · exact Or.inr (by simp [h1])
      · rcases ih h1 with h2 | h2
        · exact Or.inl h2
        · exact Or.inr (List.mem_cons_of_mem _ h2)

/-! ## C2 - the fingerprint candidate pass and malformed address fields -/

/-- C2: the claim says a record whose ip field is present but does not
parse as an IPv4 address is skipped with a diagnostic and the pass never
fails fatally.  The code instead calls .unwrap() on the parse, so the one
document below (ip present as the unparseable string 999.1.1.1, port
present) panics and aborts the whole pass. -/
theorem fingerprint_pass_panics_on_unparseable_ip :
    fingerprintLoop [[("ip", Json.str "999.1.1.1"), ("port", Json.num 25565)]] =
      FpResult.panicked := rfl

/-! ## C5 - dropping blocklisted candidates in the rescan loop -/

/-- C5 counterexample: with the blocklist containing 1.2.3.4 and two
query candidates for 1.2.3.4 on the non-canonical port 25566, the second
candidate survives into the returned ranges (the loop removed the address
from its local blocklist copy after handling the first), so not every
blocklisted non-canonical candidate is dropped. -/
theorem second_blocklisted_candidate_kept_cex :
    getRangesLoop [(1,2,3,4)] [blockedDoc, blockedDoc] =
      ⟨[((1,2,3,4), 25566)], [(1,2,3,4)]⟩ := rfl

/-- C5 amended: a candidate with a blocklisted address and a non-canonical
port can appear in the returned ranges only when its address's
non-canonical-records deletion was already triggered by an earlier
candidate of the same pass; in particular the first such candidate per
address is dropped and triggers the deletion. -/
theorem blocklisted_candidate_drop_amended (bad : List Ipv4) (docs : List Doc) (ip : Ipv4)
    (port : Nat) (hmem : (ip, port) ∈ (getRangesLoop bad docs).ranges) (hbad : ip ∈ bad)
    (hport : port ≠ 25565) : ip ∈ (getRangesLoop bad docs).deletes := by
  induction docs generalizing bad with
  | nil => simp [getRangesLoop] at hmem
  | cons d rest ih =>
    cases hip : docGetStr d "ip" with
    | none =>
      simp only [getRangesLoop, hip] at hmem ⊢
      exact ih bad hmem hbad
    | some ipStr =>
      cases hpa : parseIpv4 ipStr with
      | none =>
        simp only [getRangesLoop, hip, hpa] at hmem ⊢
        exact ih bad hmem hbad
      | some ip0 =>
        cases hpo : docGetU32 d "port" with
        | none =>
          simp only [getRangesLoop, hip, hpa, hpo] at hmem ⊢
          exact ih bad hmem hbad
        | some port0 =>
          by_cases hc : ip0 ∈ bad ∧ port0 ≠ 25565
          · simp only [getRangesLoop, hip, hpa, hpo, if_pos hc] at hmem ⊢
            by_cases he : ip = ip0
            · subst he
              exact List.mem_cons_self _ _
            · have hbad2 : ip ∈ bad.erase ip0 := (List.mem_erase_of_ne he).mpr hbad
              exact List.mem_cons_of_mem _ (ih _ hmem hbad2)
          · simp only [getRangesLoop, hip, hpa, hpo, if_neg hc] at hmem ⊢
            rcases List.mem_cons.mp hmem with h | h
            · have h1 : ip = ip0 := (Prod.mk.injEq .. ▸ h).1
              have h2 : port = port0 % 65536 := (Prod.mk.injEq .. ▸ h).2
              rcases not_and_or.mp hc with h3 | h3
              · exact absurd (h1 ▸ hbad) h3
              · have : port0 = 25565 := not_not.mp h3
                subst this
                exact absurd h2 (by simpa using hport)
            · exact ih bad h hbad

/-- C5 amended witness: on the counterexample batch the surviving second
candidate's address indeed already has its deletion recorded. -/
theorem blocklisted_candidate_drop_amended_witness :
    (1,2,3,4) ∈ (getRangesLoop [(1,2,3,4)] [blockedDoc, blockedDoc]).deletes :=
  blocklisted_candidate_drop_amended [(1,2,3,4)] [blockedDoc, blockedDoc] (1,2,3,4) 25566
    (by decide) (by decide) (by decide)

/-! ## C7 - the canonical default port is exempt from blocklist rejection -/

/-- C7: for a target on the canonical port 25565, the Anomaly Detector's
fail-fast blocklist rejection never fires, whatever the blocklist and
cache contain; and the rescan loop never drops a fetched candidate whose
stored port is 25565 - it always reaches the returned ranges. -/
theorem canonical_port_never_blocklist_rejected :
    (∀ (hashFn : String × String × Int × Int → Nat) (st : SharedState) (a : Ipv4)
        (u : CleanedData), (createBulkUpdate hashFn st (a, 25565) u).2 ≠ CBUResult.earlyBad) ∧
    (∀ (bad : List Ipv4) (docs : List Doc) (d : Doc), d ∈ docs → ∀ (s : String) (ip : Ipv4),
        docGetStr d "ip" = some s → parseIpv4 s = some ip → docGetU32 d "port" = some 25565 →
        (ip, 25565) ∈ (getRangesLoop bad docs).ranges) := by
  constructor
  · intro hashFn st a u
    have hcond : ¬(((a, (25565 : Nat)).1 ∈ st.badIps) ∧ ((a, (25565 : Nat)).2 ≠ 25565)) := by
      simp
    simp only [createBulkUpdate, if_neg hcond]
    split
    · split
      · simp
      · split
        · split
          · split <;> simp
          · simp
        · simp
    · simp
  · intro bad docs
    induction docs generalizing bad with
    | nil => intro d hd; simp at hd
    | cons d0 rest ih =>
      intro d hd s ip hs hparse hport
      rcases List.mem_cons.mp hd with h1 | h1
      · subst h1
        have hc : ¬(ip ∈ bad ∧ (25565 : Nat) ≠ 25565) := by simp
        simp only [getRangesLoop, hs, hparse, hport, if_neg hc]
        have : (25565 : Nat) % 65536 = 25565 := by decide
        rw [this]
        exact List.mem_cons_self _ _
      · cases hip0 : docGetStr d0 "ip" with
        | none =>
          simp only [getRangesLoop, hip0]
          exact ih bad d h1 s ip hs hparse hport
        | some ipStr0 =>
          cases hpa0 : parseIpv4 ipStr0 with
          | none =>
            simp only [getRangesLoop, hip0, hpa0]
            exact ih bad d h1 s ip hs hparse hport
          | some ip0 =>
            cases hpo0 : docGetU32 d0 "port" with
            | none =>
              simp only [getRangesLoop, hip0, hpa0, hpo0]
              exact ih bad d h1 s ip hs hparse hport
            | some port0 =>
              by_cases hc : ip0 ∈ bad ∧ port0 ≠ 25565
              · simp only [getRangesLoop, hip0, hpa0, hpo0, if_pos hc]
                exact ih _ d h1 s ip hs hparse hport
              · simp only [getRangesLoop, hip0, hpa0, hpo0, if_neg hc]
                exact List.mem_cons_of_mem _ (ih bad d h1 s ip hs hparse hport)

/-- C7 witness: a blocklisted address probed on port 25565 is not
fail-fast rejected, and a fetched candidate for a blocklisted address with
stored port 25565 reaches the rescan result. -/
theorem canonical_port_never_blocklist_rejected_witness :
    (createBulkUpdate (fun _ => 0) ⟨[(1,2,3,4)], []⟩ ((1,2,3,4), 25565) demoRecord).2 ≠
        CBUResult.earlyBad ∧
      ((1,2,3,4), 25565) ∈ (getRangesLoop [(1,2,3,4)] [canonDoc]).ranges :=
  ⟨canonical_port_never_blocklist_rejected.1 (fun _ => 0) ⟨[(1,2,3,4)], []⟩ (1,2,3,4) demoRecord,
   canonical_port_never_blocklist_rejected.2 [(1,2,3,4)] [canonDoc] canonDoc
     (List.mem_singleton.mpr rfl) "1.2.3.4" (1,2,3,4) rfl (by decide) rfl⟩

/-! ## C9 - non-object sample entries -/

theorem processPlayers_none_of_nonobj (now : Nat) (ps : List Json) (st : PState)
    (h : ∃ e ∈ ps, e.asObj = none) : processPlayers now ps st = none := by
  induction ps generalizing st with
  | nil => simp at h
  | cons e0 rest ih =>
    obtain ⟨e, he, hobj⟩ := h
    rcases List.mem_cons.mp he with h1 | h1
    · subst h1
      simp [processPlayers, stepPlayer, hobj]
    · cases hs : stepPlayer now e0 st with
      | none => simp [processPlayers, hs]
      | some st2 => simp [processPlayers, hs, ih st2 ⟨e, h1, hobj⟩]

/-- C9 counterexample: a payload whose description is the privacy motd and
whose player sample contains a non-object entry (a bare number) is still
accepted - the sample is ignored for that motd, so the non-object entry
does not cause rejection, contradicting the claim that any such response
returns None. -/
theorem motd_nonobject_sample_accepted_cex :
    (cleanResponseData sampleFmtDeser 0 dataC9).isSome = true := rfl

/-- C9 amended: when the flattened description is not the privacy motd
(so the sample is actually examined) and one of the first 100 sample
entries is not a JSON object, the Normalizer rejects the whole response
and returns None; entries past the first 100, or any sample under the
privacy motd, are never examined. -/
theorem nonobject_sample_entry_rejects_amended (fmtDeser : Json → Option String) (now : Nat)
    (data : Json) (hdesc : descrOf fmtDeser data ≠ some ignoreMotd)
    (hbad : ∃ e ∈ sampleEntries data, e.asObj = none) :
    cleanResponseData fmtDeser now data = none := by
  cases ho : data.asObj with
  | none => simp [cleanResponseData, ho]
  | some o =>
    cases hd : jLookup "description" o with
    | none => simp [cleanResponseData, ho, hd]
    | some dRaw =>
      by_cases hh : isHoneypot ((fmtDeser dRaw).getD "") (versionNameOf o)
      · simp [cleanResponseData, ho, hd, hh]
      · have hne : ((fmtDeser dRaw).getD "") ≠ ignoreMotd := by
          intro heq
          exact hdesc (by simp [descrOf, ho, hd, heq])
        have hsample : sampleEntries data = sampleEntriesOf o := by simp [sampleEntries, ho]
        rw [hsample] at hbad
        simp [cleanResponseData, ho, hd, hh, hne,
          processPlayers_none_of_nonobj now (sampleEntriesOf o) initPState hbad]

/-- C9 amended witness: a response with a normal description and a
non-object first sample entry is rejected. -/
theorem nonobject_sample_entry_rejects_amended_witness :
    cleanResponseData sampleFmtDeser 0
      (Json.obj [("description", Json.str "hi"),
                 ("players", Json.obj [("sample", Json.arr [Json.num 1])])]) = none :=
  nonobject_sample_entry_rejects_amended sampleFmtDeser 0
    (Json.obj [("description", Json.str "hi"),
               ("players", Json.obj [("sample", Json.arr [Json.num 1])])])
    (by decide) ⟨Json.num 1, show Json.num 1 ∈ [Json.num 1] from List.mem_singleton.mpr rfl, rfl⟩

/-! ## C3 - missing versus undeserializable descriptions -/

/-- Every honeypot banner substring fails to occur in the empty
description. -/
theorem isHoneypot_empty (vn : String) :
    isHoneypot "" vn = badVersionNames.contains vn := by
  have h : honeypotBanners.any (fun b => strContains "" b) = false := by decide
  simp [isHoneypot, h]

/-- C3 counterexample: a payload whose description field is present but
not deserializable as rich text (a bare number, rejected by the
deserializer) is NOT rejected - the code unwraps the failure to the
default (empty) rich text and still produces a record, with empty
description, contradicting the claim that the Normalizer returns None. -/
theorem undeserializable_description_accepted_cex :
    (cleanResponseData sampleFmtDeser 0 dataC3).map CleanedData.description = some "" := rfl

/-- C3 amended: a payload lacking a description field still yields None;
but a present description that fails rich-text deserialization is
defaulted to the empty string rather than rejected - any record then
produced carries the empty description, and a record IS produced whenever
the version name is not a honeypot signature and the player sample
processes cleanly. -/
theorem description_handling_amended :
    (∀ (fmtDeser : Json → Option String) (now : Nat) (data : Json) (o : List (String × Json)),
        data.asObj = some o → jLookup "description" o = none →
        cleanResponseData fmtDeser now data = none) ∧
    (∀ (fmtDeser : Json → Option String) (now : Nat) (data : Json) (o : List (String × Json))
        (d : Json), data.asObj = some o → jLookup "description" o = some d → fmtDeser d = none →
        Option.all (fun r => r.description == "") (cleanResponseData fmtDeser now data) = true) ∧
    (∀ (fmtDeser : Json → Option String) (now : Nat) (data : Json) (o : List (String × Json))
        (d : Json), data.asObj = some o → jLookup "description" o = some d → fmtDeser d = none →
        badVersionNames.contains (versionNameOf o) = false →
        (processPlayers now (sampleEntriesOf o) initPState).isSome = true →
        (cleanResponseData fmtDeser now data).isSome = true) := by
  refine ⟨?_, ?_, ?_⟩
  · intro fmtDeser now data o ho hd
    simp [cleanResponseData, ho, hd]
  · intro fmtDeser now data o d ho hd hf
    have hdesc0 : (fmtDeser d).getD "" = "" := by rw [hf]; rfl
    have hne : ¬(("" : String) = ignoreMotd) := by decide
    by_cases hh : isHoneypot "" (versionNameOf o)
    · simp [cleanResponseData, ho, hd, hdesc0, hh]
    · cases hp : processPlayers now (sampleEntriesOf o) initPState with
      | none => simp [cleanResponseData, ho, hd, hdesc0, hh, hne, hp]
      | some st => simp [cleanResponseData, ho, hd, hdesc0, hh, hne, hp, mkCleaned]
  · intro fmtDeser now data o d ho hd hf hvn hsome
    have hdesc0 : (fmtDeser d).getD "" = "" := by rw [hf]; rfl
    have hh : isHoneypot "" (versionNameOf o) = false := by rw [isHoneypot_empty]; exact hvn
    have hne : ¬(("" : String) = ignoreMotd) := by decide
    cases hp : processPlayers now (sampleEntriesOf o) initPState with
    | none => rw [hp] at hsome; simp at hsome
    | some st => simp [cleanResponseData, ho, hd, hdesc0, hh, hne, hp]

/-- C3 amended witness: on concrete payloads - one lacking a description,
one whose description is a bare number the deserializer rejects - the
three amended properties hold. -/
theorem description_handling_amended_witness :
    cleanResponseData sampleFmtDeser 0 (Json.obj [("version", Json.null)]) = none ∧
    Option.all (fun r => r.description == "") (cleanResponseData sampleFmtDeser 0 dataC3) = true ∧
    (cleanResponseData sampleFmtDeser 0 dataC3).isSome = true :=
  ⟨description_handling_amended.1 sampleFmtDeser 0 (Json.obj [("version", Json.null)])
      [("version", Json.null)] rfl rfl,
   description_handling_amended.2.1 sampleFmtDeser 0 dataC3 [("description", Json.num 5)]
      (Json.num 5) rfl rfl rfl,
   description_handling_amended.2.2 sampleFmtDeser 0 dataC3 [("description", Json.num 5)]
      (Json.num 5) rfl rfl rfl (by decide) rfl⟩

/-! ## C4 - last-seen stamping on accepted records -/

/-- C4 counterexample: the fake-sample payload dataC4 (one sample id
matching neither UUID scheme, name not the anonymous player) is accepted
by the Normalizer, yet its emitted field set carries no last-seen stamp,
contradicting the claim that every accepted record stamps last-seen. -/
theorem fake_sample_omits_last_seen_cex :
    (cleanResponseData sampleFmtDeser 7 dataC4).map CleanedData.lastSeen = some none := rfl

/-- C4 amended: every accepted record stamps updated_at with now, and
last-seen is stamped with now exactly when the player sample was NOT
flagged fabricated; a fake-flagged record is still accepted but its
last-seen (with the whole extra-data block) is omitted. -/
theorem last_seen_stamp_amended (fmtDeser : Json → Option String) (now : Nat) (data : Json)
    (h1 : (cleanResponseData fmtDeser now data).isSome = true) :
    (cleanResponseData fmtDeser now data).map CleanedData.updatedAt = some now ∧
    (fakeFlagOf fmtDeser now data = some false →
      (cleanResponseData fmtDeser now data).map CleanedData.lastSeen = some (some now)) ∧
    (fakeFlagOf fmtDeser now data = some true →
      (cleanResponseData fmtDeser now data).map CleanedData.lastSeen = some none) := by
  cases ho : data.asObj with
  | none => rw [cleanResponseData, ho] at h1; simp at h1
  | some o =>
    cases hd : jLookup "description" o with
    | none => rw [cleanResponseData, ho] at h1; simp [hd] at h1
    | some dRaw =>
      by_cases hh : isHoneypot ((fmtDeser dRaw).getD "") (versionNameOf o)
      · rw [cleanResponseData, ho] at h1
        simp [hd, hh] at h1
      · have hps : processedSample fmtDeser o =
            (if (fmtDeser dRaw).getD "" = ignoreMotd then [] else sampleEntriesOf o) := by
          simp [processedSample, hd]
        cases hp : processPlayers now
            (if (fmtDeser dRaw).getD "" = ignoreMotd then [] else sampleEntriesOf o)
            initPState with
        | none =>
          rw [cleanResponseData, ho] at h1
          simp [hd, hh, hp] at h1
        | some st =>
          have hclean : cleanResponseData fmtDeser now data =
              some (mkCleaned now o ((fmtDeser dRaw).getD "") st) := by
            rw [cleanResponseData, ho]
            simp [hd, hh, hp]
          have hfake : fakeFlagOf fmtDeser now data = some st.fake := by
            rw [fakeFlagOf, ho]
            simp [hps, hp]
          refine ⟨by simp [hclean, mkCleaned], ?_, ?_⟩
          · intro hf
            rw [hfake] at hf
            have : st.fake = false := by simpa using hf
            simp [hclean, mkCleaned, this]
          · intro hf
            rw [hfake] at hf
            have : st.fake = true := by simpa using hf
            simp [hclean, mkCleaned, this]

/-- C4 amended witness: on the fake-sample payload the record is accepted,
updated_at is stamped, and the fake verdict forces last-seen to be
omitted. -/
theorem last_seen_stamp_amended_witness :
    (cleanResponseData sampleFmtDeser 7 dataC4).map CleanedData.updatedAt = some 7 ∧
    (fakeFlagOf sampleFmtDeser 7 dataC4 = some false →
      (cleanResponseData sampleFmtDeser 7 dataC4).map CleanedData.lastSeen = some (some 7)) ∧
    (fakeFlagOf sampleFmtDeser 7 dataC4 = some true →
      (cleanResponseData sampleFmtDeser 7 dataC4).map CleanedData.lastSeen = some none) :=
  last_seen_stamp_amended sampleFmtDeser 7 dataC4 rfl

/-! ## C8 - mixed v4/v3 samples -/

theorem updateMode_mixed_mono (u : List Char) (st : PState) (h : st.mixed = true) :
    (updateMode u st).mixed = true := by
  simp [updateMode, h]

theorem updateMode_mode_mono (u : List Char) (st : PState) (m : Bool)
    (h : st.isOnlineMode = some m) : (updateMode u st).isOnlineMode = some m := by
  unfold updateMode
  split_ifs <;> simp_all

theorem updateMode_result_mode (u : List Char) (st : PState)
    (hmix : (updateMode u st).mixed = false) (hnil : u.all (fun c => c == '0') = false) :
    (updateMode u st).isOnlineMode = some (uuidIsV4 u) := by
  have hm0 : st.mixed = false := by
    by_contra hc
    rw [updateMode_mixed_mono u st (by simpa using hc)] at hmix
    exact absurd hmix (by simp)
  rw [updateMode, if_neg (by simp [hm0]), if_neg (by simp [hnil])] at hmix ⊢
  by_cases hc : (uuidIsV4 u = true ∧ st.isOnlineMode = some false) ∨
      (uuidIsV4 u = false ∧ st.isOnlineMode = some true)
  · rw [if_pos hc] at hmix
    exact absurd hmix (by simp)
  · rw [if_neg hc] at hmix ⊢
    by_cases hn : st.isOnlineMode = none
    · simp [hn]
    · rw [if_neg hn] at hmix ⊢
      cases hsm : st.isOnlineMode with
      | none => exact absurd hsm hn
      | some m =>
        cases hb : uuidIsV4 u <;> cases m <;> simp_all

theorem stepPlayer_fields (now : Nat) (e : Json) (st st2 : PState)
    (h : stepPlayer now e st = some st2) :
    ∃ p, e.asObj = some p ∧ st2.mixed = (updateMode (entryUuidOf p) st).mixed ∧
      st2.isOnlineMode = (updateMode (entryUuidOf p) st).isOnlineMode := by
  cases hobj : e.asObj with
  | none => rw [stepPlayer, hobj] at h; exact absurd h (by simp)
  | some p =>
    rw [stepPlayer, hobj] at h
    refine ⟨p, rfl, ?_, ?_⟩ <;> (injection h with h2; rw [← h2])

theorem processPlayers_mixed_mono (now : Nat) (ps : List Json) :
    ∀ st st2, processPlayers now ps st = some st2 → st.mixed = true → st2.mixed = true := by
  induction ps with
  | nil =>
    intro st st2 h hm
    rw [processPlayers] at h
    injection h with h2
    rw [← h2]; exact hm
  | cons e0 rest ih =>
    intro st st2 h hm
    rw [processPlayers] at h
    cases hs : stepPlayer now e0 st with
    | none => rw [hs] at h; exact absurd h (by simp)
    | some st1 =>
      rw [hs] at h
      obtain ⟨p, _, hmx, _⟩ := stepPlayer_fields now e0 st st1 hs
      exact ih st1 st2 h (hmx ▸ updateMode_mixed_mono _ st hm)

theorem processPlayers_mode_mono (now : Nat) (ps : List Json) :
    ∀ st st2 m, processPlayers now ps st = some st2 → st.isOnlineMode = some m →
      st2.isOnlineMode = some m := by
  induction ps with
  | nil =>
    intro st st2 m h hm
    rw [processPlayers] at h
    injection h with h2
    rw [← h2]; exact hm
  | cons e0 rest ih =>
    intro st st2 m h hm
    rw [processPlayers] at h
    cases hs : stepPlayer now e0 st with
    | none => rw [hs] at h; exact absurd h (by simp)
    | some st1 =>
      rw [hs] at h
      obtain ⟨p, _, _, hmd⟩ := stepPlayer_fields now e0 st st1 hs
      exact ih st1 st2 m h (hmd ▸ updateMode_mode_mono _ st m hm)

theorem processPlayers_mode_of_mem (now : Nat) (ps : List Json) :
    ∀ st st2, processPlayers now ps st = some st2 → st2.mixed = false →
      ∀ e ∈ ps, (entryUuid e).all (fun c => c == '0') = false →
        st2.isOnlineMode = some (uuidIsV4 (entryUuid e)) := by
  induction ps with
  | nil =>
    intro st st2 h hm e he
    simp at he
  | cons e0 rest ih =>
    intro st st2 h hm e he hnil
    rw [processPlayers] at h
    cases hs : stepPlayer now e0 st with
    | none => rw [hs] at h; exact absurd h (by simp)
    | some st1 =>
      rw [hs] at h
      rcases List.mem_cons.mp he with h1 | h1
      · subst h1
        obtain ⟨p, hobj, hmx, hmd⟩ := stepPlayer_fields now e st st1 hs
        have huu : entryUuid e = entryUuidOf p := by simp [entryUuid, hobj]
        have hm1 : st1.mixed = false := by
          by_contra hc
          rw [processPlayers_mixed_mono now rest st1 st2 h (by simpa using hc)] at hm
          exact absurd hm (by simp)
        have humx : (updateMode (entryUuidOf p) st).mixed = false := hmx ▸ hm1
        have hres := updateMode_result_mode (entryUuidOf p) st humx (huu ▸ hnil)
        have hst1 : st1.isOnlineMode = some (uuidIsV4 (entryUuidOf p)) := hmd.trans hres
        rw [huu]
        exact processPlayers_mode_mono now rest st1 st2 _ h hst1
      · exact ih st1 st2 h hm e h1 hnil

theorem validUuid_not_nil (v : Char) (hv : (v == '0') = false) (u : List Char)
    (h : validUuid v u) : u.all (fun c => c == '0') = false := by
  obtain ⟨a, b, rfl, _, _, _, _⟩ := h
  simp [List.all_append, hv]

theorem validUuid_isV4 (u : List Char) (h : validUuid '4' u) : uuidIsV4 u = true := by
  obtain ⟨a, b, rfl, ha, _, hb, _⟩ := h
  have hlen : (a ++ '4' :: b).length = 32 := by simp [ha, hb]
  have hdrop : (a ++ '4' :: b).drop 12 = '4' :: b := by
    rw [← ha]; exact List.drop_left a ('4' :: b)
  simp [uuidIsV4, hlen, hdrop]

theorem validUuid_isV3 (u : List Char) (h : validUuid '3' u) : uuidIsV4 u = false := by
  obtain ⟨a, b, rfl, ha, _, hb, _⟩ := h
  have hdrop : (a ++ '3' :: b).drop 12 = '3' :: b := by
    rw [← ha]; exact List.drop_left a ('3' :: b)
  have hhd : ((('3' : Char) :: b).head? == some '4') = false := by
    rw [List.head?_cons]; decide
  simp [uuidIsV4, hdrop, hhd]

theorem processPlayers_mixed_of_v4_v3 (now : Nat) (ps : List Json) (st st2 : PState)
    (h : processPlayers now ps st = some st2)
    (hp : ∃ p ∈ ps, validUuid '4' (entryUuid p))
    (hq : ∃ q ∈ ps, validUuid '3' (entryUuid q)) : st2.mixed = true := by
  by_contra hc
  have hmx : st2.mixed = false := by simpa using hc
  obtain ⟨p, hpm, hpv⟩ := hp
  obtain ⟨q, hqm, hqv⟩ := hq
  have h4 := processPlayers_mode_of_mem now ps st st2 h hmx p hpm
    (validUuid_not_nil '4' (by decide) _ hpv)
  have h3 := processPlayers_mode_of_mem now ps st st2 h hmx q hqm
    (validUuid_not_nil '3' (by decide) _ hqv)
  rw [validUuid_isV4 _ hpv] at h4
  rw [validUuid_isV3 _ hqv] at h3
  rw [h4] at h3
  simp at h3

/-- C8: a processed player sample containing a valid v4-pattern id and a
valid v3-pattern id (neither nil nor anonymous, within the first 100
entries, description not the privacy motd) drives the online-mode
classification to Mixed, and the accepted record stores no boolean
online-mode field (its isCracked is Null or absent, never a boolean). -/
theorem mixed_sample_yields_mixed_mode (fmtDeser : Json → Option String) (now : Nat)
    (data : Json) (h1 : (cleanResponseData fmtDeser now data).isSome = true)
    (hdesc : descrOf fmtDeser data ≠ some ignoreMotd)
    (hp : ∃ p ∈ sampleEntries data, validUuid '4' (entryUuid p))
    (hq : ∃ q ∈ sampleEntries data, validUuid '3' (entryUuid q)) :
    (processPlayers now (sampleEntries data) initPState).map PState.mixed = some true ∧
    (cleanResponseData fmtDeser now data).map boolCrackedStored = some false := by
  cases ho : data.asObj with
  | none => rw [cleanResponseData, ho] at h1; simp at h1
  | some o =>
    cases hd : jLookup "description" o with
    | none => rw [cleanResponseData, ho] at h1; simp [hd] at h1
    | some dRaw =>
      by_cases hh : isHoneypot ((fmtDeser dRaw).getD "") (versionNameOf o)
      · rw [cleanResponseData, ho] at h1; simp [hd, hh] at h1
      · have hne : ¬((fmtDeser dRaw).getD "" = ignoreMotd) := fun heq =>
          hdesc (by simp [descrOf, ho, hd, heq])
        have hsample : sampleEntries data = sampleEntriesOf o := by simp [sampleEntries, ho]
        cases hpp : processPlayers now (sampleEntriesOf o) initPState with
        | none => rw [cleanResponseData, ho] at h1; simp [hd, hh, hne, hpp] at h1
        | some st =>
          have hmix : st.mixed = true :=
            processPlayers_mixed_of_v4_v3 now (sampleEntriesOf o) initPState st hpp
              (hsample ▸ hp) (hsample ▸ hq)
          have hclean : cleanResponseData fmtDeser now data =
              some (mkCleaned now o ((fmtDeser dRaw).getD "") st) := by
            rw [cleanResponseData, ho]
            simp [hd, hh, hne, hpp]
          constructor
          · rw [hsample, hpp]
            simp [hmix]
          · rw [hclean]
            cases hf : st.fake <;> simp [mkCleaned, boolCrackedStored, hmix, hf]

/-- C8 witness: on the concrete two-entry v4/v3 sample the classification
is Mixed and no boolean online-mode field is stored. -/
theorem mixed_sample_yields_mixed_mode_witness :
    (processPlayers 3 (sampleEntries dataC8) initPState).map PState.mixed = some true ∧
    (cleanResponseData sampleFmtDeser 3 dataC8).map boolCrackedStored = some false :=
  mixed_sample_yields_mixed_mode sampleFmtDeser 3 dataC8 rfl (by decide)
    ⟨c8e1, show c8e1 ∈ [c8e1, c8e2] from List.mem_cons_self _ _,
      List.replicate 12 '0', List.replicate 19 '0', by decide, by decide, by decide, by decide,
      by decide⟩
    ⟨c8e2, show c8e2 ∈ [c8e1, c8e2] from List.mem_cons_of_mem _ (List.mem_cons_self _ _),
      List.replicate 12 '0', List.replicate 19 '0', by decide, by decide, by decide, by decide,
      by decide⟩

/-! ## create_bulk_update helper lemmas -/

theorem cbu_badIps (hashFn : String × String × Int × Int → Nat) (st : SharedState)
    (tgt : Ipv4 × Nat) (u : CleanedData) :
    (createBulkUpdate hashFn st tgt u).1.badIps = st.badIps := by
  unfold createBulkUpdate
  repeat first | rfl | split

theorem cbu_lookup_other (hashFn : String × String × Int × Int → Nat) (st : SharedState)
    (tgt : Ipv4 × Nat) (u : CleanedData) (a : Ipv4) (hne : a ≠ tgt.1) :
    cacheLookup (createBulkUpdate hashFn st tgt u).1.ipsWithSameHash a =
      cacheLookup st.ipsWithSameHash a := by
  unfold createBulkUpdate
  repeat first | rfl | exact cacheLookup_set_ne _ _ _ _ (Ne.symm hne) | split

theorem cbu_count_none (hashFn : String × String × Int × Int → Nat) (st : SharedState)
    (tgt : Ipv4 × Nat) (u : CleanedData) (hsh : Nat) (P : List Nat)
    (h : cacheLookup st.ipsWithSameHash tgt.1 = some (⟨none, hsh⟩, P)) :
    (createBulkUpdate hashFn st tgt u).1 = st ∧
      isPromoted (createBulkUpdate hashFn st tgt u).2 = false := by
  unfold createBulkUpdate
  by_cases hc : tgt.1 ∈ st.badIps ∧ tgt.2 ≠ 25565
  · rw [if_pos hc]
    exact ⟨rfl, rfl⟩
  · rw [if_neg hc]
    by_cases hp : tgt.2 ∈ P <;> simp [h, hp, isPromoted]

/-! ## C10 - the active count always equals the port-set size -/

theorem cbu_preserves_inv (hashFn : String × String × Int × Int → Nat) (st : SharedState)
    (tgt : Ipv4 × Nat) (u : CleanedData) (hinv : CacheInv st.ipsWithSameHash) :
    CacheInv (createBulkUpdate hashFn st tgt u).1.ipsWithSameHash := by
  unfold createBulkUpdate
  by_cases hc : tgt.1 ∈ st.badIps ∧ tgt.2 ≠ 25565
  · rw [if_pos hc]; exact hinv
  · rw [if_neg hc]
    cases hlook : cacheLookup st.ipsWithSameHash tgt.1 with
    | none =>
      simp only [hlook]
      intro kv hkv
      rcases mem_cacheSet _ _ _ _ hkv with h1 | h1
      · rw [h1]
        exact ⟨rfl, List.nodup_singleton _⟩
      · exact hinv kv h1
    | some val =>
      obtain ⟨data, ports⟩ := val
      have hmem : (tgt.1, data, ports) ∈ st.ipsWithSameHash := cacheLookup_mem _ _ _ hlook
      have hold := hinv _ hmem
      by_cases hp : tgt.2 ∈ ports
      · simp only [hlook, if_pos hp]; exact hinv
      · simp only [hlook, if_neg hp]
        cases hcount : data.count with
        | none => simp only [hcount]; exact hinv
        | some c =>
          simp only [hcount]
          by_cases hhash : determineHash hashFn u = data.hash
          · rw [if_pos hhash]
            have hcore : CacheInv (cacheSet st.ipsWithSameHash tgt.1
                (⟨some (c + 1), data.hash⟩, insertPort tgt.2 ports)) := by
              intro kv hkv
              rcases mem_cacheSet _ _ _ _ hkv with h1 | h1
              · rw [h1]
                have hlen : c = ports.length := by
                  have := hold.1
                  rw [hcount] at this
                  exact this
                refine ⟨?_, ?_⟩
                · show countOk (some (c + 1)) (insertPort tgt.2 ports).length
                  simp [insertPort, hp, hlen, countOk]
                · show (insertPort tgt.2 ports).Nodup
                  simp only [insertPort, if_neg hp]
                  rw [List.nodup_append]
                  exact ⟨hold.2, List.nodup_singleton _,
                    fun a ha => by simp; intro heq; exact hp (heq ▸ ha)⟩
              · exact hinv kv h1
            by_cases hge : c + 1 ≥ 100
            · rw [if_pos hge]; exact hcore
            · rw [if_neg hge]; exact hcore
          · rw [if_neg hhash]
            intro kv hkv
            rcases mem_cacheSet _ _ _ _ hkv with h1 | h1
            · rw [h1]
              exact ⟨trivial, hold.2⟩
            · exact hinv kv h1

theorem runUpdates_preserves_inv (hashFn : String × String × Int × Int → Nat)
    (probes : List ((Ipv4 × Nat) × CleanedData)) :
    ∀ st : SharedState, CacheInv st.ipsWithSameHash →
      CacheInv (runUpdates hashFn st probes).1.ipsWithSameHash := by
  induction probes with
  | nil => intro st h; exact h
  | cons pr rest ih =>
    obtain ⟨tgt, u⟩ := pr
    intro st h
    exact ih _ (cbu_preserves_inv hashFn st tgt u h)

/-- C10: starting from the empty repeat cache, after any sequence of
create_bulk_update calls every cache entry whose count is still active
holds a count equal to the number of ports in its recorded
(duplicate-free) port set. -/
theorem count_matches_port_set_invariant (hashFn : String × String × Int × Int → Nat)
    (bad0 : List Ipv4) (probes : List ((Ipv4 × Nat) × CleanedData)) :
    CacheInv (runUpdates hashFn ⟨bad0, []⟩ probes).1.ipsWithSameHash :=
  runUpdates_preserves_inv hashFn probes ⟨bad0, []⟩ (by intro kv hkv; simp at hkv)

/-- C10 witness: the invariant evaluated after two concrete probes of the
same address on two ports. -/
theorem count_matches_port_set_invariant_witness :
    CacheInv (runUpdates (fun _ => 0) ⟨[], []⟩
      [(((1,1,1,1), 2), demoRecord), (((1,1,1,1), 3), demoRecord)]).1.ipsWithSameHash :=
  count_matches_port_set_invariant (fun _ => 0) []
    [(((1,1,1,1), 2), demoRecord), (((1,1,1,1), 3), demoRecord)]

/-! ## C6 - fingerprint mismatch permanently disables counting -/

theorem runUpdates_count_none (hashFn : String × String × Int × Int → Nat)
    (probes : List ((Ipv4 × Nat) × CleanedData)) :
    ∀ (st : SharedState) (addr : Ipv4) (hsh : Nat) (P : List Nat),
      cacheLookup st.ipsWithSameHash addr = some (⟨none, hsh⟩, P) →
      cacheLookup (runUpdates hashFn st probes).1.ipsWithSameHash addr =
          some (⟨none, hsh⟩, P) ∧
        ((probes.zip (runUpdates hashFn st probes).2).all
          (fun x => !(x.1.1.1 == addr) || !(isPromoted x.2))) = true := by
  induction probes with
  | nil =>
    intro st addr hsh P h
    exact ⟨h, rfl⟩
  | cons pr rest ih =>
    obtain ⟨tgt, u⟩ := pr
    intro st addr hsh P h
    by_cases heq : tgt.1 = addr
    · have hlook : cacheLookup st.ipsWithSameHash tgt.1 = some (⟨none, hsh⟩, P) := by
        rw [heq]; exact h
      obtain ⟨hst, hprom⟩ := cbu_count_none hashFn st tgt u hsh P hlook
      have hrec := ih (createBulkUpdate hashFn st tgt u).1 addr hsh P (by rw [hst]; exact h)
      simp only [runUpdates, List.zip_cons_cons, List.all_cons]
      exact ⟨hrec.1, by simp [hprom, hrec.2]⟩
    · have hlook2 : cacheLookup (createBulkUpdate hashFn st tgt u).1.ipsWithSameHash addr =
          some (⟨none, hsh⟩, P) := by
        rw [cbu_lookup_other hashFn st tgt u addr (fun hx => heq hx.symm)]
        exact h
      have hrec := ih (createBulkUpdate hashFn st tgt u).1 addr hsh P hlook2
      simp only [runUpdates, List.zip_cons_cons, List.all_cons]
      refine ⟨hrec.1, ?_⟩
      have hne : (tgt.1 == addr) = false := beq_eq_false_iff_ne.mpr heq
      simp [hne, hrec.2]

/-- C6: once an address's cache entry sees a differing fingerprint its
count is invalidated in place (set to none, entry and port set retained,
no promotion on that probe); and from any state where the entry's count is
none, every later create_bulk_update call leaves the entry untouched -
even for probes of that address whose fingerprint matches the cached hash
again - and never signals blocklist promotion for that address. -/
theorem mismatch_disables_counting_permanently :
    (∀ (hashFn : String × String × Int × Int → Nat) (st : SharedState) (addr : Ipv4)
        (port : Nat) (u : CleanedData) (c hsh : Nat) (P : List Nat),
      addr ∉ st.badIps →
      cacheLookup st.ipsWithSameHash addr = some (⟨some c, hsh⟩, P) →
      port ∉ P →
      determineHash hashFn u ≠ hsh →
      cacheLookup (createBulkUpdate hashFn st (addr, port) u).1.ipsWithSameHash addr =
          some (⟨none, hsh⟩, P) ∧
        isPromoted (createBulkUpdate hashFn st (addr, port) u).2 = false) ∧
    (∀ (hashFn : String × String × Int × Int → Nat)
        (probes : List ((Ipv4 × Nat) × CleanedData)) (st : SharedState) (addr : Ipv4)
        (hsh : Nat) (P : List Nat),
      cacheLookup st.ipsWithSameHash addr = some (⟨none, hsh⟩, P) →
      cacheLookup (runUpdates hashFn st probes).1.ipsWithSameHash addr =
          some (⟨none, hsh⟩, P) ∧
        ((probes.zip (runUpdates hashFn st probes).2).all
          (fun x => !(x.1.1.1 == addr) || !(isPromoted x.2))) = true) := by
  constructor
  · intro hashFn st addr port u c hsh P hbad hlook hport hne
    have hcond : ¬(((addr, port) : Ipv4 × Nat).1 ∈ st.badIps ∧
        ((addr, port) : Ipv4 × Nat).2 ≠ 25565) := fun hcc => hbad hcc.1
    rw [createBulkUpdate, if_neg hcond]
    simp [hlook, hport, hne, isPromoted, cacheLookup_set_self]
  · intro hashFn probes st addr hsh P h
    exact runUpdates_count_none hashFn probes st addr hsh P h

/-- C6 witness: a probe with a mismatching fingerprint (hash 0 against
cached hash 7) invalidates the count for address 1.1.1.1 keeping the
entry, and from an invalidated entry a later matching probe of the same
address neither promotes nor changes the entry. -/
theorem mismatch_disables_counting_permanently_witness :
    (cacheLookup (createBulkUpdate (fun _ => 0) ⟨[], [((1,1,1,1), ⟨some 3, 7⟩, [5])]⟩
          ((1,1,1,1), 6) demoRecord).1.ipsWithSameHash (1,1,1,1) = some (⟨none, 7⟩, [5]) ∧
      isPromoted (createBulkUpdate (fun _ => 0) ⟨[], [((1,1,1,1), ⟨some 3, 7⟩, [5])]⟩
          ((1,1,1,1), 6) demoRecord).2 = false) ∧
    (cacheLookup (runUpdates (fun _ => 0) ⟨[], [((1,1,1,1), ⟨none, 7⟩, [5])]⟩
          [(((1,1,1,1), 9), demoRecord)]).1.ipsWithSameHash (1,1,1,1) =
        some (⟨none, 7⟩, [5]) ∧
      (([(((1,1,1,1), 9), demoRecord)].zip (runUpdates (fun _ => 0)
            ⟨[], [((1,1,1,1), ⟨none, 7⟩, [5])]⟩ [(((1,1,1,1), 9), demoRecord)]).2).all
        (fun x => !(x.1.1.1 == (1,1,1,1)) || !(isPromoted x.2))) = true) :=
  ⟨mismatch_disables_counting_permanently.1 (fun _ => 0) ⟨[], [((1,1,1,1), ⟨some 3, 7⟩, [5])]⟩
      (1,1,1,1) 6 demoRecord 3 7 [5] (by simp) rfl (by decide) (by decide),
   mismatch_disables_counting_permanently.2 (fun _ => 0) [(((1,1,1,1), 9), demoRecord)]
      ⟨[], [((1,1,1,1), ⟨none, 7⟩, [5])]⟩ (1,1,1,1) 7 [5] rfl⟩

/-! ## C1 - promotion exactly on the 100th distinct port -/

theorem range_flags_cons (c n : Nat) :
    (List.range (n + 1)).map (fun i => decide (c + i + 1 ≥ 100)) =
      decide (c + 1 ≥ 100) :: (List.range n).map (fun i => decide (c + 1 + i + 1 ≥ 100)) := by
  rw [List.range_succ_eq_map, List.map_cons, List.map_map]
  refine congrArg _ ?_
  apply List.map_congr_left
  intro i _
  show decide (c + (i + 1) + 1 ≥ 100) = decide (c + 1 + i + 1 ≥ 100)
  exact decide_eq_decide.mpr (by omega)

theorem runSeg (hashFn : String × String × Int × Int → Nat) (addr : Ipv4) :
    ∀ (ps : List (Nat × CleanedData)) (st : SharedState) (c h : Nat) (P : List Nat),
      addr ∉ st.badIps →
      cacheLookup st.ipsWithSameHash addr = some (⟨some c, h⟩, P) →
      (∀ pu ∈ ps, determineHash hashFn pu.2 = h) →
      (ps.map Prod.fst).Nodup →
      (∀ pu ∈ ps, pu.1 ∉ P) →
      ((runUpdates hashFn st (ps.map (fun pu => ((addr, pu.1), pu.2)))).2).map isPromoted =
          (List.range ps.length).map (fun i => decide (c + i + 1 ≥ 100)) ∧
        cacheLookup
            (runUpdates hashFn st (ps.map (fun pu => ((addr, pu.1), pu.2)))).1.ipsWithSameHash
            addr = some (⟨some (c + ps.length), h⟩, P ++ ps.map Prod.fst) ∧
        (runUpdates hashFn st (ps.map (fun pu => ((addr, pu.1), pu.2)))).1.badIps = st.badIps := by
  intro ps
  induction ps with
  | nil =>
    intro st c h P hbad hlook hh hnd hP
    simp [runUpdates, hlook]
  | cons pu rest ih =>
    obtain ⟨p, u⟩ := pu
    intro st c h P hbad hlook hh hnd hP
    have hcond : ¬(((addr, p) : Ipv4 × Nat).1 ∈ st.badIps ∧
        ((addr, p) : Ipv4 × Nat).2 ≠ 25565) := fun hcc => hbad hcc.1
    have hpP : p ∉ P := hP (p, u) (List.mem_cons_self _ _)
    have hhu : determineHash hashFn u = h := hh (p, u) (List.mem_cons_self _ _)
    have hstep : createBulkUpdate hashFn st (addr, p) u =
        ({ st with ipsWithSameHash :=
            cacheSet st.ipsWithSameHash addr (⟨some (c + 1), h⟩, P ++ [p]) },
          if c + 1 ≥ 100 then CBUResult.promotedBad else CBUResult.ok addr p u true) := by
      rw [createBulkUpdate, if_neg hcond]
      simp only [hlook, hhu, insertPort, hpP, if_true, if_neg hpP]
      by_cases hge : c + 1 ≥ 100 <;> simp [hge]
    have hpn : p ∉ rest.map Prod.fst := (List.nodup_cons.mp hnd).1
    have hnd1 : (rest.map Prod.fst).Nodup := (List.nodup_cons.mp hnd).2
    have hP1 : ∀ pu ∈ rest, pu.1 ∉ P ++ [p] := by
      intro q hq
      simp only [List.mem_append, List.mem_singleton]
      rintro (hqP | hqp)
      · exact hP q (List.mem_cons_of_mem _ hq) hqP
      · exact hpn (hqp ▸ List.mem_map_of_mem Prod.fst hq)
    have hh1 : ∀ pu ∈ rest, determineHash hashFn pu.2 = h :=
      fun q hq => hh q (List.mem_cons_of_mem _ hq)
    have hlook1 : cacheLookup
        (cacheSet st.ipsWithSameHash addr (⟨some (c + 1), h⟩, P ++ [p])) addr =
        some (⟨some (c + 1), h⟩, P ++ [p]) := cacheLookup_set_self _ _ _
    obtain ⟨ihf, ihl, ihb⟩ := ih
      { st with ipsWithSameHash :=
          cacheSet st.ipsWithSameHash addr (⟨some (c + 1), h⟩, P ++ [p]) }
      (c + 1) h (P ++ [p]) hbad hlook1 hh1 hnd1 hP1
    refine ⟨?_, ?_, ?_⟩
    · simp only [List.map_cons, runUpdates, hstep, List.length_cons, range_flags_cons]
      rw [ihf]
      have hflag : isPromoted
          (if c + 1 ≥ 100 then CBUResult.promotedBad else CBUResult.ok addr p u true) =
          decide (c + 1 ≥ 100) := by
        by_cases hge : c + 1 ≥ 100 <;> simp [hge, isPromoted]
      rw [hflag]
    · simp only [List.map_cons, runUpdates, hstep, List.length_cons]
      rw [ihl]
      have h1 : c + 1 + rest.length = c + (rest.length + 1) := by omega
      have h2 : (P ++ [p]) ++ rest.map Prod.fst = P ++ p :: rest.map Prod.fst := by
        simp
      rw [h1, h2]
    · simp only [List.map_cons, runUpdates, hstep]
      exact ihb

/-- C1: from a state where an address is not blocklisted and has no repeat
cache entry, 100 probes of that address on 100 pairwise distinct ports,
all carrying records with the same content fingerprint, make
create_bulk_update signal blocklist promotion exactly once - on the 100th
probe - and on no earlier probe. -/
theorem promotion_on_100th_distinct_port (hashFn : String × String × Int × Int → Nat)
    (st0 : SharedState) (addr : Ipv4) (probes : List (Nat × CleanedData)) (h : Nat)
    (hbad : addr ∉ st0.badIps)
    (hfresh : cacheLookup st0.ipsWithSameHash addr = none)
    (hlen : probes.length = 100)
    (hnodup : (probes.map Prod.fst).Nodup)
    (hhash : ∀ pu ∈ probes, determineHash hashFn pu.2 = h) :
    ((runUpdates hashFn st0 (probes.map (fun pu => ((addr, pu.1), pu.2)))).2).map isPromoted =
      List.replicate 99 false ++ [true] := by
  cases probes with
  | nil => simp at hlen
  | cons pu rest =>
    obtain ⟨p, u⟩ := pu
    have hlen99 : rest.length = 99 := by simpa using hlen
    have hcond : ¬(((addr, p) : Ipv4 × Nat).1 ∈ st0.badIps ∧
        ((addr, p) : Ipv4 × Nat).2 ≠ 25565) := fun hcc => hbad hcc.1
    have hhu : determineHash hashFn u = h := hhash (p, u) (List.mem_cons_self _ _)
    have hstep : createBulkUpdate hashFn st0 (addr, p) u =
        ({ st0 with ipsWithSameHash := cacheSet st0.ipsWithSameHash addr (⟨some 1, h⟩, [p]) },
          CBUResult.ok addr p u true) := by
      rw [createBulkUpdate, if_neg hcond]
      simp [hfresh, hhu]
    have hpn : p ∉ rest.map Prod.fst := (List.nodup_cons.mp hnodup).1
    have hnd1 : (rest.map Prod.fst).Nodup := (List.nodup_cons.mp hnodup).2
    have hP1 : ∀ pu ∈ rest, pu.1 ∉ [p] := by
      intro q hq
      simp only [List.mem_singleton]
      intro hqp
      exact hpn (hqp ▸ List.mem_map_of_mem Prod.fst hq)
    have hh1 : ∀ pu ∈ rest, determineHash hashFn pu.2 = h :=
      fun q hq => hhash q (List.mem_cons_of_mem _ hq)
    have hlook1 : cacheLookup (cacheSet st0.ipsWithSameHash addr (⟨some 1, h⟩, [p])) addr =
        some (⟨some 1, h⟩, [p]) := cacheLookup_set_self _ _ _
    obtain ⟨ihf, _, _⟩ := runSeg hashFn addr rest
      { st0 with ipsWithSameHash := cacheSet st0.ipsWithSameHash addr (⟨some 1, h⟩, [p]) }
      1 h [p] hbad hlook1 hh1 hnd1 hP1
    simp only [List.map_cons, runUpdates, hstep, List.map_cons]
    rw [show isPromoted (CBUResult.ok addr p u true) = false from rfl, ihf, hlen99]
    decide

/-- C1 witness: 100 probes of one fresh address on ports 0..99, all with
the same record, produce 99 non-promoting outcomes followed by exactly one
promotion signal. -/
theorem promotion_on_100th_distinct_port_witness :
    ((runUpdates (fun _ => 0) ⟨[], []⟩
        (((List.range 100).map (fun i => (i, demoRecord))).map
          (fun pu => (((9,9,9,9), pu.1), pu.2)))).2).map isPromoted =
      List.replicate 99 false ++ [true] :=
  promotion_on_100th_distinct_port (fun _ => 0) ⟨[], []⟩ (9,9,9,9)
    ((List.range 100).map (fun i => (i, demoRecord))) 0 (by simp) rfl (by simp)
    (by
      rw [List.map_map]
      have hcomp : (Prod.fst ∘ fun i : Nat => (i, demoRecord)) = id := rfl
      rw [hcomp, List.map_id]
      exact List.nodup_range 100)
    (fun pu _ => rfl)

end Matscan
